import Mathlib

/-!
Shallow embedding of the seismic-load calculation engine (`model.py`,
class `SeismicModel`) over the real numbers.  Python floats become `ℝ`,
`x ** y` becomes `Real.rpow`, `np.interp` becomes the clamped
piecewise-linear `interp` below, dictionary keys that are only
conditionally inserted become `Option` fields, and the
`CalculationResult` / `ErrorResult` duality becomes `Except String Results`.
-/

namespace Seismic

noncomputable section

/-- Site classes A–F (`SiteClass` input field). -/
inductive SiteCls
  | A | B | C | D | E | F
deriving DecidableEq

/-- The four structure types of `ct_map` in `calculate_loads`. -/
inductive StructureType
  | steelMomentFrame
  | concreteMomentFrame
  | eccentricBraced
  | otherSystems
deriving DecidableEq

/-- The three result units of the `f_conv` dictionary. -/
inductive ForceUnit
  | kN | Ton | kg
deriving DecidableEq

/-- Seismic design category letters, ordered alphabetically like the
Python strings compared by `max`. -/
inductive SDCCat
  | A | B | C | D | E | F
deriving DecidableEq

/-- One story of input: height `h` (m) and weight `w` (force units). -/
structure Story where
  h : ℝ
  w : ℝ

/-- The input dictionary consumed by `calculate_loads`. -/
structure Inputs where
  Ss : ℝ
  S1 : ℝ
  siteClass : SiteCls
  R : ℝ
  Ie : ℝ
  TL : ℝ
  structureType : StructureType
  stories : List Story
  unit : ForceUnit
  Omega0 : ℝ
  Rho : ℝ

/-- `np.interp` on an increasing control-point list: clamps below the
first and above the last control point, linear interpolation between
bracketing points. -/
def interp (v : ℝ) : List (ℝ × ℝ) → ℝ
  | [] => 0
  | [(_, y)] => y
  | (x1, y1) :: (x2, y2) :: rest =>
      if v ≤ x1 then y1
      else if v ≤ x2 then y1 + (y2 - y1) * ((v - x1) / (x2 - x1))
      else interp v ((x2, y2) :: rest)

/-- Rows of ASCE 7-05 Table 11.4-1 paired with the `ss_vals` abscissas;
class F has no row (`None` in the source). -/
def faRows : SiteCls → Option (List (ℝ × ℝ))
  | .A => some [(0.25, 0.8), (0.50, 0.8), (0.75, 0.8), (1.00, 0.8), (1.25, 0.8)]
  | .B => some [(0.25, 1.0), (0.50, 1.0), (0.75, 1.0), (1.00, 1.0), (1.25, 1.0)]
  | .C => some [(0.25, 1.2), (0.50, 1.2), (0.75, 1.1), (1.00, 1.0), (1.25, 1.0)]
  | .D => some [(0.25, 1.6), (0.50, 1.4), (0.75, 1.2), (1.00, 1.1), (1.25, 1.0)]
  | .E => some [(0.25, 2.5), (0.50, 1.7), (0.75, 1.2), (1.00, 0.9), (1.25, 0.9)]
  | .F => none

/-- Rows of ASCE 7-05 Table 11.4-2 paired with the `s1_vals` abscissas. -/
def fvRows : SiteCls → Option (List (ℝ × ℝ))
  | .A => some [(0.10, 0.8), (0.20, 0.8), (0.30, 0.8), (0.40, 0.8), (0.50, 0.8)]
  | .B => some [(0.10, 1.0), (0.20, 1.0), (0.30, 1.0), (0.40, 1.0), (0.50, 1.0)]
  | .C => some [(0.10, 1.7), (0.20, 1.6), (0.30, 1.5), (0.40, 1.4), (0.50, 1.3)]
  | .D => some [(0.10, 2.4), (0.20, 2.0), (0.30, 1.8), (0.40, 1.6), (0.50, 1.5)]
  | .E => some [(0.10, 3.5), (0.20, 3.2), (0.30, 2.8), (0.40, 2.4), (0.50, 2.4)]
  | .F => none

/-- `SeismicModel.get_fa`: `None` for class F, otherwise interpolated. -/
def get_fa (siteClass : SiteCls) (ss : ℝ) : Option ℝ :=
  (faRows siteClass).map (interp ss)

/-- `SeismicModel.get_fv`. -/
def get_fv (siteClass : SiteCls) (s1 : ℝ) : Option ℝ :=
  (fvRows siteClass).map (interp s1)

/-- Occupancy category inferred from `Ie` in `get_sdc`. -/
def occCat (ie : ℝ) : ℕ :=
  if ie < 1.25 then 1 else if ie < 1.5 then 3 else 4

/-- The inner `check_table` helper of `get_sdc`. -/
def check_table (occ : ℕ) (val l1 l2 l3 : ℝ) : SDCCat :=
  if val < l1 then .A
  else if val < l2 then (if occ = 4 then .C else .B)
  else if val < l3 then (if occ = 4 then .D else .C)
  else .D

/-- Alphabetical rank of a category letter. -/
def SDCCat.rank : SDCCat → ℕ
  | .A => 0 | .B => 1 | .C => 2 | .D => 3 | .E => 4 | .F => 5

/-- Python `max` on the two category strings (alphabetical order,
second argument wins ties only when strictly greater). -/
def sdcMax (a b : SDCCat) : SDCCat :=
  if a.rank < b.rank then b else a

/-- `SeismicModel.get_sdc`. -/
def get_sdc (sds sd1 ie : ℝ) : SDCCat :=
  sdcMax (check_table (occCat ie) sds 0.167 0.33 0.50)
    (check_table (occCat ie) sd1 0.067 0.133 0.20)

/-- Structure types whose Spanish name contains "Momento". -/
def isMomentFrame : StructureType → Bool
  | .steelMomentFrame => true
  | .concreteMomentFrame => true
  | .eccentricBraced => false
  | .otherSystems => false

/-- `SeismicModel.get_drift_limit_ratio` (the numeric ratio; the
explanatory note string is dropped). -/
def get_drift_limit_ratio (ie : ℝ) (sdc : SDCCat) (st : StructureType) (rho : ℝ) : ℝ :=
  let base : ℝ := if ie < 1.25 then 0.025 else if ie < 1.5 then 0.020 else 0.015
  if isMomentFrame st = true ∧ (sdc = .D ∨ sdc = .E ∨ sdc = .F) then base / rho else base

/-- The `(Ct, x)` pairs of `ct_map`. -/
def ct_map : StructureType → ℝ × ℝ
  | .steelMomentFrame => (0.0724, 0.8)
  | .concreteMomentFrame => (0.0466, 0.9)
  | .eccentricBraced => (0.0731, 0.75)
  | .otherSystems => (0.0488, 0.75)

/-- The `f_conv` unit factors. -/
def fConv : ForceUnit → ℝ
  | .kN => 1.0
  | .Ton => 0.10197
  | .kg => 101.97

/-- The exponent `k` of Section 12.8.3 as a function of the period. -/
def kExp (t : ℝ) : ℝ :=
  if t ≤ 0.5 then 1.0 else if t ≥ 2.5 then 2.0 else 1 + (t - 0.5) / 2.0

/-- `Fa` as used downstream of the `None` guard (defaulted to 0; the
default is never consumed because `calculate_loads` errors out first). -/
def FaOf (inp : Inputs) : ℝ := (get_fa inp.siteClass inp.Ss).getD 0

/-- `Fv` as used downstream of the `None` guard. -/
def FvOf (inp : Inputs) : ℝ := (get_fv inp.siteClass inp.S1).getD 0

/-- `SMS = Fa * Ss`. -/
def SMSOf (inp : Inputs) : ℝ := FaOf inp * inp.Ss

/-- `SM1 = Fv * S1`. -/
def SM1Of (inp : Inputs) : ℝ := FvOf inp * inp.S1

/-- `SDS = (2/3) * SMS`. -/
def SDSOf (inp : Inputs) : ℝ := 2 / 3 * SMSOf inp

/-- `SD1 = (2/3) * SM1`. -/
def SD1Of (inp : Inputs) : ℝ := 2 / 3 * SM1Of inp

/-- `SDC = get_sdc(SDS, SD1, Ie)`. -/
def SDCOf (inp : Inputs) : SDCCat := get_sdc (SDSOf inp) (SD1Of inp) inp.Ie

/-- `hn`: total height, the sum of the story heights. -/
def hnOf (inp : Inputs) : ℝ := (inp.stories.map Story.h).sum

/-- `Ta = Ct * hn ** x` (real power). -/
def TaOf (inp : Inputs) : ℝ :=
  (ct_map inp.structureType).1 * hnOf inp ^ (ct_map inp.structureType).2

/-- `Cu_val`: interpolated from Table 12.8-1, overwritten with 1.4 when
`SD1 > 0.4`. -/
def Cu_val (sd1 : ℝ) : ℝ :=
  if sd1 > 0.4 then 1.4
  else interp sd1 [(0.1, 1.7), (0.15, 1.6), (0.2, 1.5), (0.3, 1.4), (0.4, 1.4)]

/-- `Cu` for a whole input. -/
def CuOf (inp : Inputs) : ℝ := Cu_val (SD1Of inp)

/-- `T_upper = Cu * Ta`. -/
def TupperOf (inp : Inputs) : ℝ := CuOf inp * TaOf inp

/-- `T_used = min(T_upper, Ta)`. -/
def TusedOf (inp : Inputs) : ℝ := min (TupperOf inp) (TaOf inp)

/-- The response-modification factor after the `if R == 0: R = 1.0` guard. -/
def Reff (inp : Inputs) : ℝ := if inp.R = 0 then 1.0 else inp.R

/-- `Cs_calc = SDS / (R / Ie)` (Eq. 12.8-2). -/
def Cs_calcOf (inp : Inputs) : ℝ := SDSOf inp / (Reff inp / inp.Ie)

/-- `Cs_max` (Eq. 12.8-3 or 12.8-4 depending on `T_used <= TL`). -/
def Cs_maxOf (inp : Inputs) : ℝ :=
  if TusedOf inp ≤ inp.TL then SD1Of inp / (TusedOf inp * (Reff inp / inp.Ie))
  else SD1Of inp * inp.TL / (TusedOf inp ^ 2 * (Reff inp / inp.Ie))

/-- `Cs_min_2 = 0.044 * SDS * Ie`, floored at 0.01 (Eq. 12.8-5). -/
def Cs_min2Of (inp : Inputs) : ℝ :=
  if 0.044 * SDSOf inp * inp.Ie < 0.01 then 0.01 else 0.044 * SDSOf inp * inp.Ie

/-- `Cs_min_3` (Eq. 12.8-6), active only when `S1 >= 0.6`. -/
def Cs_min3Of (inp : Inputs) : ℝ :=
  if inp.S1 ≥ 0.6 then 0.5 * inp.S1 / (Reff inp / inp.Ie) else 0

/-- `Cs = max(min(Cs_calc, Cs_max), Cs_min_2, Cs_min_3, Cs_min)`. -/
def CsOf (inp : Inputs) : ℝ :=
  max (max (max (min (Cs_calcOf inp) (Cs_maxOf inp)) (Cs_min2Of inp)) (Cs_min3Of inp)) 0.01

/-- `W_total_kN`: sum of story weights in the internal unit. -/
def W_totalOf (inp : Inputs) : ℝ := (inp.stories.map Story.w).sum

/-- `V_kN = Cs * W_total_kN` (Eq. 12.8-1). -/
def V_kNOf (inp : Inputs) : ℝ := CsOf inp * W_totalOf inp

/-- `k` for a whole input. -/
def kOf (inp : Inputs) : ℝ := kExp (TusedOf inp)

/-- Drift ratio for a whole input. -/
def driftRatioOf (inp : Inputs) : ℝ :=
  get_drift_limit_ratio inp.Ie (SDCOf inp) inp.structureType inp.Rho

/-- The per-story loop building `story_data`: each story is mapped to
`(w_kN, hx, h_story)` where `hx` is the running cumulative height. -/
def cumPairs (acc : ℝ) : List Story → List (ℝ × ℝ × ℝ)
  | [] => []
  | s :: rest => (s.w, acc + s.h, s.h) :: cumPairs (acc + s.h) rest

/-- `story_data` before the distribution pass. -/
def storyDataOf (inp : Inputs) : List (ℝ × ℝ × ℝ) := cumPairs 0 inp.stories

/-- `sum_whk = sum of w_kN * hx ** k`. -/
def sumWhkOf (inp : Inputs) : ℝ :=
  ((storyDataOf inp).map (fun p => p.1 * p.2.1 ^ kOf inp)).sum

/-- One entry of the output `distribution` list.  The fields `w`, `Cvx`,
`Fx`, `Da_disp` and `Vx` are dictionary keys only inserted inside the
`if sum_whk > 0` block of the source, hence `Option`. -/
structure StoryOut where
  w_kN : ℝ
  hx : ℝ
  h_story : ℝ
  delta_a : ℝ
  w : Option ℝ
  Cvx : Option ℝ
  Fx : Option ℝ
  Da_disp : Option ℝ
  Vx : Option ℝ

/-- Suffix sums: the value at index `i` is the sum of the list from `i`
on.  This is exactly what the reversed `accum`/`insert(0, accum)` pass
of the source produces. -/
def suffixSums : List ℝ → List ℝ
  | [] => []
  | x :: xs => (x + xs.sum) :: suffixSums xs

/-- The `item['Vx'] = shears[i]` update of the second pass. -/
def setVx (it : StoryOut) (v : ℝ) : StoryOut := { it with Vx := some v }

/-- The fully populated story items of the `sum_whk > 0` branch:
`Cvx` per Eq. 12.8-12, `Fx = Cvx·V` per Eq. 12.8-11 (then converted),
`w` and `Da_disp` converted for display. -/
def distItems (inp : Inputs) : List StoryOut :=
  (storyDataOf inp).map (fun p =>
    ({ w_kN := p.1, hx := p.2.1, h_story := p.2.2,
       delta_a := p.2.2 * driftRatioOf inp,
       w := some (p.1 * fConv inp.unit),
       Cvx := some (p.1 * p.2.1 ^ kOf inp / sumWhkOf inp),
       Fx := some (p.1 * p.2.1 ^ kOf inp / sumWhkOf inp * V_kNOf inp * fConv inp.unit),
       Da_disp := some (p.2.2 * driftRatioOf inp * 100),
       Vx := none } : StoryOut))

/-- The story items kept when the distribution pass is skipped: only
the base dictionary keys are present. -/
def baseItems (inp : Inputs) : List StoryOut :=
  (storyDataOf inp).map (fun p =>
    ({ w_kN := p.1, hx := p.2.1, h_story := p.2.2,
       delta_a := p.2.2 * driftRatioOf inp,
       w := none, Cvx := none, Fx := none, Da_disp := none, Vx := none } : StoryOut))

/-- The `distribution` output: when `sum_whk > 0` every story gets `w`,
`Cvx`, `Fx`, `Da_disp` and then `Vx` by the reversed cumulative pass;
otherwise the stories keep only the base fields. -/
def distributionOf (inp : Inputs) : List StoryOut :=
  if 0 < sumWhkOf inp then
    List.zipWith setVx (distItems inp)
      (suffixSums ((distItems inp).map (fun it => it.Fx.getD 0)))
  else baseItems inp

/-- `T0 = 0.2 * SD1 / SDS` guarded by `SDS > 0`. -/
def T0Of (inp : Inputs) : ℝ :=
  if 0 < SDSOf inp then 0.2 * SD1Of inp / SDSOf inp else 0

/-- `Ts = SD1 / SDS` guarded by `SDS > 0`. -/
def TsOf (inp : Inputs) : ℝ :=
  if 0 < SDSOf inp then SD1Of inp / SDSOf inp else 0

/-- The piecewise spectral acceleration of Section 11.4.5. -/
def saFormula (SDS SD1 TL T0 Ts t : ℝ) : ℝ :=
  if t < T0 then SDS * (0.4 + 0.6 * (t / T0))
  else if t < Ts then SDS
  else if t < TL then SD1 / t
  else SD1 * TL / t ^ 2

/-- Spectral acceleration at period `t` for a whole input. -/
def saOf (inp : Inputs) (t : ℝ) : ℝ :=
  saFormula (SDSOf inp) (SD1Of inp) inp.TL (T0Of inp) (TsOf inp) t

/-- `np.linspace a b n`. -/
def linspace (a b : ℝ) (n : ℕ) : List ℝ :=
  (List.range n).map (fun i => a + (b - a) * i / ((n : ℝ) - 1))

/-- The sampled design spectrum `(p_range, sa_vals)`. -/
def spectrumOf (inp : Inputs) : List (ℝ × ℝ) :=
  (linspace 0 (inp.TL + 2) 100).map (fun t => (t, saOf inp t))

/-- The `self.results` dictionary of a successful run. -/
structure Results where
  Fa : ℝ
  Fv : ℝ
  SMS : ℝ
  SM1 : ℝ
  SDS : ℝ
  SD1 : ℝ
  Ta : ℝ
  T_used : ℝ
  Cu : ℝ
  Cs : ℝ
  Cs_calc : ℝ
  Cs_max : ℝ
  Cs_min : ℝ
  k : ℝ
  W_total : ℝ
  V : ℝ
  T0 : ℝ
  Ts : ℝ
  distribution : List StoryOut
  spectrum : List (ℝ × ℝ)
  SDC : SDCCat
  Omega0 : ℝ
  Rho : ℝ
  Ev_coef : ℝ
  driftLimit : ℝ
  inputs : Inputs

/-- Assembly of the results dictionary (lines 202–211 of the source). -/
def computeResults (inp : Inputs) : Results :=
  { Fa := FaOf inp, Fv := FvOf inp, SMS := SMSOf inp, SM1 := SM1Of inp,
    SDS := SDSOf inp, SD1 := SD1Of inp,
    Ta := TaOf inp, T_used := TusedOf inp, Cu := CuOf inp,
    Cs := CsOf inp, Cs_calc := Cs_calcOf inp, Cs_max := Cs_maxOf inp,
    Cs_min := Cs_min2Of inp, k := kOf inp,
    W_total := W_totalOf inp * fConv inp.unit, V := V_kNOf inp * fConv inp.unit,
    T0 := T0Of inp, Ts := TsOf inp,
    distribution := distributionOf inp, spectrum := spectrumOf inp,
    SDC := SDCOf inp, Omega0 := inp.Omega0, Rho := inp.Rho,
    Ev_coef := 0.2 * SDSOf inp, driftLimit := driftRatioOf inp, inputs := inp }

/-- `SeismicModel.calculate_loads`: errors out exactly when `get_fa` or
`get_fv` yields no coefficient (site class F), otherwise produces the
full results dictionary. -/
def calculate_loads (inp : Inputs) : Except String Results :=
  match get_fa inp.siteClass inp.Ss, get_fv inp.siteClass inp.S1 with
  | some _, some _ => Except.ok (computeResults inp)
  | _, _ => Except.error "Sitio F requiere estudio específico."

/-- Scenario A regression fixture: three stories of h = 3.5, w = 2000. -/
def inpA : Inputs :=
  { Ss := 1.5, S1 := 0.6, siteClass := .D, R := 8, Ie := 1, TL := 8,
    structureType := .steelMomentFrame,
    stories := [⟨3.5, 2000⟩, ⟨3.5, 2000⟩, ⟨3.5, 2000⟩],
    unit := .kN, Omega0 := 3, Rho := 1 }

/-- A tall single-story input (total height 243 m): here the 0.044·SDS·Ie
floor exceeds the Cs ceiling. -/
def inpTall : Inputs :=
  { Ss := 1.5, S1 := 0.6, siteClass := .D, R := 8, Ie := 1, TL := 8,
    structureType := .steelMomentFrame,
    stories := [⟨243, 1000⟩],
    unit := .kN, Omega0 := 3, Rho := 1 }

/-- Scenario B fixture: all story weights zero. -/
def inpZero : Inputs :=
  { Ss := 1.5, S1 := 0.6, siteClass := .D, R := 8, Ie := 1, TL := 8,
    structureType := .steelMomentFrame,
    stories := [⟨3.5, 0⟩, ⟨3.5, 0⟩, ⟨3.5, 0⟩],
    unit := .kN, Omega0 := 3, Rho := 1 }

/-- A site-class-F input. -/
def inpF : Inputs :=
  { Ss := 1.5, S1 := 0.6, siteClass := .F, R := 8, Ie := 1, TL := 8,
    structureType := .steelMomentFrame,
    stories := [⟨3.5, 2000⟩],
    unit := .kN, Omega0 := 3, Rho := 1 }

/-- A minimal one-story input (h = 1, w = 1) used to instantiate
universally quantified theorems. -/
def inpOne : Inputs :=
  { Ss := 1.5, S1 := 0.6, siteClass := .D, R := 8, Ie := 1, TL := 8,
    structureType := .steelMomentFrame,
    stories := [⟨1, 1⟩],
    unit := .kN, Omega0 := 3, Rho := 1 }

/-- The one-story fixture run with results requested in kN. -/
def resKN : Results := computeResults { inpOne with unit := ForceUnit.kN }

/-- The one-story fixture run with results requested in Ton. -/
def resTon : Results := computeResults { inpOne with unit := ForceUnit.Ton }

end

/-! ## Helper lemmas -/

/-- `10.5 ** 0.8` (the Scenario A height power) lies in `[6.5606, 6.5608]`,
by comparing fifth powers with `10.5 ^ 4 = 12155.0625`. -/
theorem rpow_ten_half_bounds :
    (6.5606 : ℝ) ≤ (10.5 : ℝ) ^ (0.8 : ℝ) ∧ (10.5 : ℝ) ^ (0.8 : ℝ) ≤ 6.5608 := by
  have h0 : (0 : ℝ) ≤ 10.5 := by norm_num
  have hy0 : (0 : ℝ) ≤ (10.5 : ℝ) ^ (0.8 : ℝ) := Real.rpow_nonneg h0 _
  have h5 : ((10.5 : ℝ) ^ (0.8 : ℝ)) ^ (5 : ℕ) = (10.5 : ℝ) ^ (4 : ℕ) := by
    rw [← Real.rpow_natCast ((10.5 : ℝ) ^ (0.8 : ℝ)) 5, ← Real.rpow_mul h0]
    norm_num
  have h5ne : (5 : ℕ) ≠ 0 := by norm_num
  constructor
  · have hlow : (6.5606 : ℝ) ^ (5 : ℕ) ≤ ((10.5 : ℝ) ^ (0.8 : ℝ)) ^ (5 : ℕ) := by
      rw [h5]; norm_num
    exact le_of_pow_le_pow_left₀ h5ne hy0 hlow
  · have hhigh : ((10.5 : ℝ) ^ (0.8 : ℝ)) ^ (5 : ℕ) ≤ (6.5608 : ℝ) ^ (5 : ℕ) := by
      rw [h5]; norm_num
    exact le_of_pow_le_pow_left₀ h5ne (by norm_num) hhigh

/-- `243 ** 0.8 = 81` exactly, because `243 = 3 ^ 5`. -/
theorem rpow_243 : (243 : ℝ) ^ (0.8 : ℝ) = 81 := by
  have h3 : (0 : ℝ) ≤ 3 := by norm_num
  rw [show (243 : ℝ) = (3 : ℝ) ^ (5 : ℕ) by norm_num,
    ← Real.rpow_natCast (3 : ℝ) 5, ← Real.rpow_mul h3]
  norm_num

/-! ### Evaluation of the Scenario A fixture -/

/-- Scenario A: `SDS = (2/3)·Fa·Ss = 1`. -/
theorem scenA_SDS : SDSOf inpA = 1 := by
  norm_num [SDSOf, SMSOf, FaOf, get_fa, faRows, inpA, interp]

/-- Scenario A: `SD1 = (2/3)·Fv·S1 = 0.6`. -/
theorem scenA_SD1 : SD1Of inpA = 0.6 := by
  norm_num [SD1Of, SM1Of, FvOf, get_fv, fvRows, inpA, interp]

/-- Scenario A: `Ta = 0.0724 · 10.5 ** 0.8`. -/
theorem scenA_Ta : TaOf inpA = 0.0724 * (10.5 : ℝ) ^ (0.8 : ℝ) := by
  have h : hnOf inpA = 10.5 := by norm_num [hnOf, inpA]
  rw [TaOf, h]; norm_num [ct_map, inpA]

/-- Scenario A: numeric bracketing of `Ta`. -/
theorem scenA_Ta_bounds : 0.47498 ≤ TaOf inpA ∧ TaOf inpA ≤ 0.47501 := by
  rw [scenA_Ta]
  obtain ⟨hl, hh⟩ := rpow_ten_half_bounds
  constructor <;> nlinarith

/-- Scenario A: `Cu = 1.4` because `SD1 > 0.4`. -/
theorem scenA_Cu : CuOf inpA = 1.4 := by
  rw [CuOf, scenA_SD1]; norm_num [Cu_val]

/-- Scenario A: the design period collapses to `Ta`. -/
theorem scenA_Tused : TusedOf inpA = TaOf inpA := by
  rw [TusedOf, TupperOf, scenA_Cu]
  have h0 : 0 ≤ TaOf inpA := by linarith [scenA_Ta_bounds.1]
  exact min_eq_right (by nlinarith)

/-- Scenario A: `k = 1` because `T_used ≤ 0.5`. -/
theorem scenA_k : kOf inpA = 1 := by
  rw [kOf, scenA_Tused, kExp, if_pos (by linarith [scenA_Ta_bounds.2])]
  norm_num

/-- Scenario A: the governing seismic coefficient is `Cs = 0.125`. -/
theorem scenA_Cs : CsOf inpA = 0.125 := by
  have hR : Reff inpA = 8 := by
    rw [Reff, show inpA.R = (8 : ℝ) from rfl]; norm_num
  have hIe : inpA.Ie = 1 := rfl
  have hTL : inpA.TL = 8 := rfl
  have hcalc : Cs_calcOf inpA = 0.125 := by
    rw [Cs_calcOf, scenA_SDS, hR, hIe]; norm_num
  have hmax : 0.125 ≤ Cs_maxOf inpA := by
    rw [Cs_maxOf, scenA_Tused, scenA_SD1, hR, hIe, hTL,
      if_pos (by linarith [scenA_Ta_bounds.2])]
    rw [le_div_iff₀ (by nlinarith [scenA_Ta_bounds.1])]
    nlinarith [scenA_Ta_bounds.2]
  have hmin2 : Cs_min2Of inpA = 0.044 := by
    rw [Cs_min2Of, scenA_SDS, hIe]; norm_num
  have hmin3 : Cs_min3Of inpA = 0.0375 := by
    rw [Cs_min3Of, hR, hIe, show inpA.S1 = (0.6 : ℝ) from rfl]; norm_num
  rw [CsOf, hcalc, hmin2, hmin3, min_eq_left hmax]
  norm_num

/-- Scenario A: base shear in the internal unit. -/
theorem scenA_V : V_kNOf inpA = 750 := by
  rw [V_kNOf, scenA_Cs, W_totalOf]
  norm_num [inpA]

/-- Scenario A: seismic design category D. -/
theorem scenA_SDC : SDCOf inpA = .D := by
  rw [SDCOf, scenA_SDS, scenA_SD1]
  norm_num [get_sdc, occCat, check_table, sdcMax, SDCCat.rank, inpA]

/-- Scenario A: the cumulative-height story data. -/
theorem scenA_storyData :
    storyDataOf inpA = [(2000, 3.5, 3.5), (2000, 7, 3.5), (2000, 10.5, 3.5)] := by
  norm_num [storyDataOf, cumPairs, inpA]

/-- Scenario A: `sum_whk = 42000`. -/
theorem scenA_sumWhk : sumWhkOf inpA = 42000 := by
  rw [sumWhkOf, scenA_storyData, scenA_k]
  norm_num [Real.rpow_one]

/-- Scenario A: allowable drift ratio 0.025 (category I/II, `Rho = 1`). -/
theorem scenA_drift : driftRatioOf inpA = 0.025 := by
  rw [driftRatioOf, scenA_SDC]
  norm_num [get_drift_limit_ratio, isMomentFrame, show inpA.Ie = (1 : ℝ) from rfl,
    show inpA.structureType = StructureType.steelMomentFrame from rfl,
    show inpA.Rho = (1 : ℝ) from rfl]

/-- Scenario A: the complete per-story distribution. -/
theorem scenA_dist : distributionOf inpA =
    [⟨2000, 3.5, 3.5, 0.0875, some 2000, some (1/6), some 125, some 8.75, some 750⟩,
     ⟨2000, 7, 3.5, 0.0875, some 2000, some (1/3), some 250, some 8.75, some 625⟩,
     ⟨2000, 10.5, 3.5, 0.0875, some 2000, some (1/2), some 375, some 8.75, some 375⟩] := by
  simp only [distributionOf, distItems]
  rw [scenA_sumWhk, scenA_k, scenA_V, scenA_storyData, scenA_drift]
  norm_num [Real.rpow_one, suffixSums, setVx, fConv,
    show inpA.unit = ForceUnit.kN from rfl]

/-- Scenario A: spectrum breakpoints. -/
theorem scenA_T0Ts : T0Of inpA = 0.12 ∧ TsOf inpA = 0.6 := by
  constructor
  · rw [T0Of, scenA_SDS, scenA_SD1]; norm_num
  · rw [TsOf, scenA_SDS, scenA_SD1]; norm_num

/-! ## Claim theorems -/

/-- C1 counterexample: in the Scenario A fixture the approximate period
`Ta = 0.0724 · 10.5 ** 0.8 = 0.47499…` does not round to the claimed
`0.4751`: it differs from it by more than half an ulp of the fourth
decimal place. -/
theorem scenarioA_Ta_not_4751 : ¬ (|TaOf inpA - 0.4751| ≤ 0.00005) := by
  have h2 := scenA_Ta_bounds.2
  have habs : (0.4751 : ℝ) - TaOf inpA ≤ |TaOf inpA - 0.4751| := by
    rw [abs_sub_comm]
    exact le_abs_self _
  intro h
  linarith

/-- C1 (amended): the Scenario A fixture produces exactly the claimed
values, except that `Ta` (and hence `T_used`) is `0.4750` rather than
`0.4751` to four decimal places: `Fa = 1`, `Fv = 1.5`, `SDS = 1`,
`SD1 = 0.6`, `SDC = D`, `|Ta - 0.4750| ≤ 5e-5`, `T_used = Ta`,
`Cs = 0.125`, `V = 750`, `k = 1`, `Cvx ≈ (0.1667, 0.3333, 0.5)`,
`Fx = (125, 250, 375)`, `Vx = (750, 625, 375)` bottom-to-top,
`T0 = 0.12`, `Ts = 0.6`, and the spectrum takes value `0.4` at `t = 0`,
`1` at and just below `T0` and at `Ts`, and `0.075` on both sides
of `TL`. -/
theorem scenarioA_regression :
    FaOf inpA = 1 ∧ FvOf inpA = 1.5 ∧ SDSOf inpA = 1 ∧ SD1Of inpA = 0.6 ∧
    SDCOf inpA = SDCCat.D ∧
    |TaOf inpA - 0.4750| ≤ 0.00005 ∧ TusedOf inpA = TaOf inpA ∧
    CsOf inpA = 0.125 ∧ (computeResults inpA).V = 750 ∧ kOf inpA = 1 ∧
    (∃ c1 c2 c3,
      (distributionOf inpA).map StoryOut.Cvx = [some c1, some c2, some c3] ∧
      |c1 - 0.1667| ≤ 0.00005 ∧ |c2 - 0.3333| ≤ 0.00005 ∧ c3 = 0.5) ∧
    (distributionOf inpA).map StoryOut.Fx = [some 125, some 250, some 375] ∧
    (distributionOf inpA).map StoryOut.Vx = [some 750, some 625, some 375] ∧
    T0Of inpA = 0.12 ∧ TsOf inpA = 0.6 ∧
    saOf inpA 0 = 0.4 ∧
    SDSOf inpA * (0.4 + 0.6 * (T0Of inpA / T0Of inpA)) = 1 ∧
    saOf inpA (T0Of inpA) = 1 ∧ saOf inpA (TsOf inpA) = 1 ∧
    SD1Of inpA / inpA.TL = 0.075 ∧ saOf inpA inpA.TL = 0.075 := by
  have hTL : inpA.TL = 8 := rfl
  have hT0 := scenA_T0Ts.1
  have hTs := scenA_T0Ts.2
  refine ⟨?_, ?_, scenA_SDS, scenA_SD1, scenA_SDC, ?_, scenA_Tused, scenA_Cs,
    ?_, scenA_k, ?_, ?_, ?_, hT0, hTs, ?_, ?_, ?_, ?_, ?_, ?_⟩
  · norm_num [FaOf, get_fa, faRows, inpA, interp]
  · norm_num [FvOf, get_fv, fvRows, inpA, interp]
  · obtain ⟨hl, hh⟩ := scenA_Ta_bounds
    rw [abs_le]; constructor <;> linarith
  · show V_kNOf inpA * fConv inpA.unit = 750
    rw [scenA_V, show inpA.unit = ForceUnit.kN from rfl]
    norm_num [fConv]
  · refine ⟨1/6, 1/3, 1/2, ?_, ?_, ?_, by norm_num⟩
    · rw [scenA_dist]; norm_num
    · rw [abs_le]; norm_num
    · rw [abs_le]; norm_num
  · rw [scenA_dist]; norm_num
  · rw [scenA_dist]; norm_num
  · rw [saOf, scenA_SDS, scenA_SD1, hT0, hTs, hTL]; norm_num [saFormula]
  · rw [scenA_SDS, hT0]; norm_num
  · rw [saOf, scenA_SDS, scenA_SD1, hT0, hTs, hTL]; norm_num [saFormula]
  · rw [saOf, scenA_SDS, scenA_SD1, hT0, hTs, hTL]; norm_num [saFormula]
  · rw [scenA_SD1, hTL]; norm_num
  · rw [saOf, scenA_SDS, scenA_SD1, hT0, hTs, hTL]; norm_num [saFormula]

/-- C4: a site-class-F input makes `calculate_loads` return the error
result with its human-readable message; no results record is produced. -/
theorem siteF_gives_error (inp : Inputs) (h : inp.siteClass = SiteCls.F) :
    calculate_loads inp = Except.error "Sitio F requiere estudio específico." := by
  simp [calculate_loads, get_fa, get_fv, faRows, fvRows, h]

/-- C4 witness: the concrete site-class-F fixture errors out. -/
theorem siteF_gives_error_witness :
    calculate_loads inpF = Except.error "Sitio F requiere estudio específico." :=
  siteF_gives_error inpF rfl

/-- Each branch of the inner classifier returns a letter in A–D. -/
theorem check_table_range (occ : ℕ) (val l1 l2 l3 : ℝ) :
    check_table occ val l1 l2 l3 = .A ∨ check_table occ val l1 l2 l3 = .B ∨
    check_table occ val l1 l2 l3 = .C ∨ check_table occ val l1 l2 l3 = .D := by
  unfold check_table
  split_ifs <;> simp

/-- The Python string `max` returns one of its two arguments. -/
theorem sdcMax_or (a b : SDCCat) : sdcMax a b = a ∨ sdcMax a b = b := by
  unfold sdcMax
  split_ifs <;> simp

/-- C10: the seismic design category classifier can only answer A, B, C
or D — never E or F — for any real `SDS`, `SD1`, `Ie`. -/
theorem get_sdc_range (sds sd1 ie : ℝ) :
    get_sdc sds sd1 ie = .A ∨ get_sdc sds sd1 ie = .B ∨
    get_sdc sds sd1 ie = .C ∨ get_sdc sds sd1 ie = .D := by
  unfold get_sdc
  rcases sdcMax_or (check_table (occCat ie) sds 0.167 0.33 0.50)
      (check_table (occCat ie) sd1 0.067 0.133 0.20) with h | h <;> rw [h]
  · exact check_table_range _ _ _ _ _
  · exact check_table_range _ _ _ _ _

/-- C9: the vertical-distribution exponent `k` always lies in `[1, 2]`
and is monotone non-decreasing in the period. -/
theorem kExp_bounds_mono (t1 t2 : ℝ) (_h0 : 0 ≤ t1) (h12 : t1 ≤ t2) :
    1 ≤ kExp t1 ∧ kExp t1 ≤ 2 ∧ kExp t1 ≤ kExp t2 := by
  unfold kExp
  split_ifs <;> refine ⟨by linarith, by linarith, by linarith⟩

/-- C9 witness at `t1 = 0.3`, `t2 = 1`. -/
theorem kExp_bounds_mono_witness :
    1 ≤ kExp 0.3 ∧ kExp 0.3 ≤ 2 ∧ kExp 0.3 ≤ kExp 1 :=
  kExp_bounds_mono 0.3 1 (by norm_num) (by norm_num)

/-- C5: exact continuity of the design-spectrum formula at its three
breakpoints: the ascending branch evaluated at `T0` equals the plateau
value (which is what `saFormula` returns there), the plateau equals
`SD1/Ts` at `Ts = SD1/SDS`, and the two descending branches agree
at `TL`. -/
theorem spectrum_breakpoints (SDS SD1 TL : ℝ)
    (h1 : 0 < SDS) (h2 : 0 < SD1) (h3 : 0 < TL) :
    SDS * (0.4 + 0.6 * ((0.2 * SD1 / SDS) / (0.2 * SD1 / SDS))) =
      saFormula SDS SD1 TL (0.2 * SD1 / SDS) (SD1 / SDS) (0.2 * SD1 / SDS) ∧
    SDS = SD1 / (SD1 / SDS) ∧
    SD1 / TL = SD1 * TL / TL ^ 2 := by
  have hT0 : 0 < 0.2 * SD1 / SDS := by positivity
  have hTs : 0 < SD1 / SDS := by positivity
  refine ⟨?_, ?_, ?_⟩
  · have hlt : 0.2 * SD1 / SDS < SD1 / SDS :=
      (div_lt_div_iff_of_pos_right h1).mpr (by linarith)
    rw [saFormula, if_neg (lt_irrefl _), if_pos hlt, div_self hT0.ne']
    ring
  · field_simp
  · field_simp
    ring

/-- C5 witness at `SDS = 1`, `SD1 = 0.6`, `TL = 8` (the Scenario A
design accelerations). -/
theorem spectrum_breakpoints_witness :
    (1 : ℝ) * (0.4 + 0.6 * ((0.2 * 0.6 / 1) / (0.2 * 0.6 / 1))) =
      saFormula 1 0.6 8 (0.2 * 0.6 / 1) (0.6 / 1) (0.2 * 0.6 / 1) ∧
    (1 : ℝ) = 0.6 / (0.6 / 1) ∧
    (0.6 : ℝ) / 8 = 0.6 * 8 / 8 ^ 2 :=
  spectrum_breakpoints 1 0.6 8 (by norm_num) (by norm_num) (by norm_num)

/-- The interpolated period-limit coefficient never drops below 1 (its
table values all lie in `[1.4, 1.7]`). -/
theorem Cu_val_ge_one (v : ℝ) : 1 ≤ Cu_val v := by
  unfold Cu_val
  simp only [interp]
  split_ifs <;> try norm_num
  all_goals nlinarith

/-- C7: the period-limit coefficient from the 5-point table (with
boundary clamping and the explicit `SD1 > 0.4` override) is always at
least 1, and consequently `T_used = min(Cu·Ta, Ta)` collapses to `Ta`
for every input with non-negative story heights. -/
theorem Cu_ge_one_Tused_eq_Ta :
    (∀ sd1 : ℝ, 1 ≤ Cu_val sd1) ∧
    (∀ inp : Inputs, (∀ s ∈ inp.stories, 0 ≤ s.h) → TusedOf inp = TaOf inp) := by
  refine ⟨Cu_val_ge_one, fun inp hh => ?_⟩
  have hCt : 0 ≤ (ct_map inp.structureType).1 := by
    cases inp.structureType <;> norm_num [ct_map]
  have hhn : 0 ≤ hnOf inp := by
    refine List.sum_nonneg ?_
    intro x hx
    obtain ⟨s, hs, rfl⟩ := List.mem_map.mp hx
    exact hh s hs
  have hTa : 0 ≤ TaOf inp := mul_nonneg hCt (Real.rpow_nonneg hhn _)
  have hCu : 1 ≤ CuOf inp := Cu_val_ge_one _
  rw [TusedOf, TupperOf]
  exact min_eq_right (le_mul_of_one_le_left hTa hCu)

/-- C7 witness: instantiated at `sd1 = 0.25` and at the one-story
fixture. -/
theorem Cu_ge_one_Tused_eq_Ta_witness :
    1 ≤ Cu_val 0.25 ∧ TusedOf inpOne = TaOf inpOne := by
  refine ⟨Cu_ge_one_Tused_eq_Ta.1 0.25, Cu_ge_one_Tused_eq_Ta.2 inpOne ?_⟩
  intro s hs
  simp only [inpOne, List.mem_singleton] at hs
  rw [hs]
  norm_num

/-! ### Evaluation of the tall-building fixture -/

/-- Tall fixture: same site parameters as Scenario A, so `SDS = 1`. -/
theorem tall_SDS : SDSOf inpTall = 1 := by
  norm_num [SDSOf, SMSOf, FaOf, get_fa, faRows, inpTall, interp]

/-- Tall fixture: `SD1 = 0.6`. -/
theorem tall_SD1 : SD1Of inpTall = 0.6 := by
  norm_num [SD1Of, SM1Of, FvOf, get_fv, fvRows, inpTall, interp]

/-- Tall fixture: `Ta = 0.0724 · 243 ** 0.8 = 5.8644` exactly. -/
theorem tall_Ta : TaOf inpTall = 5.8644 := by
  have hhn : hnOf inpTall = 243 := by norm_num [hnOf, inpTall]
  rw [TaOf, hhn, show ct_map inpTall.structureType = ((0.0724 : ℝ), (0.8 : ℝ)) from rfl]
  rw [show ((0.0724 : ℝ), (0.8 : ℝ)).1 = (0.0724 : ℝ) from rfl,
    show ((0.0724 : ℝ), (0.8 : ℝ)).2 = (0.8 : ℝ) from rfl, rpow_243]
  norm_num

/-- Tall fixture: the design period again collapses to `Ta`. -/
theorem tall_Tused : TusedOf inpTall = 5.8644 := by
  rw [TusedOf, TupperOf, CuOf, tall_SD1, show Cu_val 0.6 = 1.4 by norm_num [Cu_val],
    tall_Ta]
  exact min_eq_right (by norm_num)

/-- Tall fixture: the ceiling evaluates to `0.6 / 46.9152 ≈ 0.0128`. -/
theorem tall_Cs_max : Cs_maxOf inpTall = 0.6 / 46.9152 := by
  have hR : Reff inpTall = 8 := by
    rw [Reff, show inpTall.R = (8 : ℝ) from rfl]; norm_num
  rw [Cs_maxOf, tall_Tused, tall_SD1, hR, show inpTall.Ie = (1 : ℝ) from rfl,
    show inpTall.TL = (8 : ℝ) from rfl, if_pos (by norm_num)]
  norm_num

/-- Tall fixture: the governing coefficient is the `0.044·SDS·Ie` floor. -/
theorem tall_Cs : CsOf inpTall = 0.044 := by
  have hR : Reff inpTall = 8 := by
    rw [Reff, show inpTall.R = (8 : ℝ) from rfl]; norm_num
  have hcalc : Cs_calcOf inpTall = 0.125 := by
    rw [Cs_calcOf, tall_SDS, hR, show inpTall.Ie = (1 : ℝ) from rfl]; norm_num
  have hmin2 : Cs_min2Of inpTall = 0.044 := by
    rw [Cs_min2Of, tall_SDS, show inpTall.Ie = (1 : ℝ) from rfl]; norm_num
  have hmin3 : Cs_min3Of inpTall = 0.0375 := by
    rw [Cs_min3Of, hR, show inpTall.Ie = (1 : ℝ) from rfl,
      show inpTall.S1 = (0.6 : ℝ) from rfl]; norm_num
  rw [CsOf, hcalc, hmin2, hmin3, tall_Cs_max, min_eq_right (by norm_num)]
  norm_num

/-- C2 counterexample: the tall single-story fixture is a valid input
(site class D, `R, Ie, T_used > 0`) on which the final `Cs` (0.044,
from the `0.044·SDS·Ie` floor) strictly exceeds the computed ceiling
`SD1/(T_used·R/Ie) ≈ 0.0128`. -/
theorem Cs_exceeds_ceiling_cex :
    inpTall.siteClass ≠ SiteCls.F ∧ 0 < inpTall.R ∧ 0 < inpTall.Ie ∧
    0 < TusedOf inpTall ∧ Cs_maxOf inpTall < CsOf inpTall := by
  refine ⟨by simp [inpTall], by norm_num [inpTall], by norm_num [inpTall], ?_, ?_⟩
  · rw [tall_Tused]; norm_num
  · rw [tall_Cs_max, tall_Cs]; norm_num

/-- C2 (amended): for every valid input the final `Cs` is at least each
of the three floors — `max(0.044·SDS·Ie, 0.01)`, the high-seismicity
floor, and the absolute `0.01` — and it is bounded by the computed
ceiling whenever the ceiling itself is not undercut by one of the
floors (the unconditional upper bound is refuted by
the tall fixture). -/
theorem Cs_floor_ceiling_bounds (inp : Inputs)
    (_h1 : inp.siteClass ≠ SiteCls.F) (_h2 : 0 < inp.R) (_h3 : 0 < inp.Ie)
    (_h4 : 0 < TusedOf inp) :
    Cs_min2Of inp = max (0.044 * SDSOf inp * inp.Ie) 0.01 ∧
    Cs_min2Of inp ≤ CsOf inp ∧ Cs_min3Of inp ≤ CsOf inp ∧ 0.01 ≤ CsOf inp ∧
    (Cs_min2Of inp ≤ Cs_maxOf inp → Cs_min3Of inp ≤ Cs_maxOf inp →
      0.01 ≤ Cs_maxOf inp → CsOf inp ≤ Cs_maxOf inp) := by
  refine ⟨?_, ?_, ?_, ?_, ?_⟩
  · rw [Cs_min2Of]
    split_ifs with h
    · exact (max_eq_right h.le).symm
    · exact (max_eq_left (le_of_not_lt h)).symm
  · rw [CsOf]
    exact le_max_of_le_left (le_max_of_le_left (le_max_right _ _))
  · rw [CsOf]
    exact le_max_of_le_left (le_max_right _ _)
  · rw [CsOf]
    exact le_max_right _ _
  · intro g2 g3 g4
    rw [CsOf]
    exact max_le (max_le (max_le (min_le_right _ _) g2) g3) g4

/-- One-story fixture: `T_used = Ta = 0.0724 · 1 ** 0.8 = 0.0724`. -/
theorem inpOne_Tused : TusedOf inpOne = 0.0724 := by
  have hSD1 : SD1Of inpOne = 0.6 := by
    norm_num [SD1Of, SM1Of, FvOf, get_fv, fvRows, inpOne, interp]
  have hhn : hnOf inpOne = 1 := by norm_num [hnOf, inpOne]
  have hTa : TaOf inpOne = 0.0724 := by
    rw [TaOf, hhn, show ct_map inpOne.structureType = ((0.0724 : ℝ), (0.8 : ℝ)) from rfl]
    rw [show ((0.0724 : ℝ), (0.8 : ℝ)).1 = (0.0724 : ℝ) from rfl,
      show ((0.0724 : ℝ), (0.8 : ℝ)).2 = (0.8 : ℝ) from rfl, Real.one_rpow]
    norm_num
  rw [TusedOf, TupperOf, CuOf, hSD1, show Cu_val 0.6 = 1.4 by norm_num [Cu_val], hTa]
  exact min_eq_right (by norm_num)

/-- C2 witness: the amended bounds instantiated at the one-story
fixture. -/
theorem Cs_floor_ceiling_bounds_witness :
    Cs_min2Of inpOne = max (0.044 * SDSOf inpOne * inpOne.Ie) 0.01 ∧
    Cs_min2Of inpOne ≤ CsOf inpOne ∧ Cs_min3Of inpOne ≤ CsOf inpOne ∧
    0.01 ≤ CsOf inpOne ∧
    (Cs_min2Of inpOne ≤ Cs_maxOf inpOne → Cs_min3Of inpOne ≤ Cs_maxOf inpOne →
      0.01 ≤ Cs_maxOf inpOne → CsOf inpOne ≤ Cs_maxOf inpOne) := by
  refine Cs_floor_ceiling_bounds inpOne (by simp [inpOne]) (by norm_num [inpOne])
    (by norm_num [inpOne]) ?_
  rw [inpOne_Tused]
  norm_num

/-! ### Zero-weight stories -/

/-- Weights recorded in the cumulative story data are the input weights:
if all story weights vanish so do all first components. -/
theorem cumPairs_weight_zero (l : List Story) (hw : ∀ s ∈ l, s.w = 0) :
    ∀ acc p, p ∈ cumPairs acc l → p.1 = 0 := by
  induction l with
  | nil =>
    intro acc p hp
    simp [cumPairs] at hp
  | cons s rest ih =>
    intro acc p hp
    simp only [cumPairs, List.mem_cons] at hp
    rcases hp with rfl | hp
    · exact hw s (List.mem_cons_self _ _)
    · exact ih (fun t ht => hw t (List.mem_cons_of_mem _ ht)) _ p hp

/-- All-zero weights make the weighted-term sum vanish, whatever `k`. -/
theorem sumWhk_zero (inp : Inputs) (hw : ∀ s ∈ inp.stories, s.w = 0) :
    sumWhkOf inp = 0 := by
  rw [sumWhkOf]
  refine List.sum_eq_zero ?_
  intro x hx
  obtain ⟨p, hp, rfl⟩ := List.mem_map.mp hx
  rw [cumPairs_weight_zero inp.stories hw 0 p hp, zero_mul]

/-- Non-F site classes always produce a successful result. -/
theorem calculate_loads_ok (inp : Inputs) (hF : inp.siteClass ≠ SiteCls.F) :
    calculate_loads inp = Except.ok (computeResults inp) := by
  cases hsc : inp.siteClass <;>
    simp_all [calculate_loads, get_fa, get_fv, faRows, fvRows]

/-- C3 counterexample: on the all-zero-weight Scenario B fixture the
calculation succeeds, but the per-story `Cvx`/`Fx`/`Vx` are absent
(`none`), not `0`: the dictionary keys are only inserted inside the
`sum_whk > 0` branch of the source. -/
theorem zero_weights_cvx_absent_cex :
    calculate_loads inpZero = Except.ok (computeResults inpZero) ∧
    ¬ (∀ s ∈ (computeResults inpZero).distribution,
        s.Cvx = some 0 ∧ s.Fx = some 0 ∧ s.Vx = some 0) := by
  have hsd : storyDataOf inpZero = [(0, 3.5, 3.5), (0, 7, 3.5), (0, 10.5, 3.5)] := by
    norm_num [storyDataOf, cumPairs, inpZero]
  have h0 : sumWhkOf inpZero = 0 := by
    rw [sumWhkOf, hsd]
    simp
  have hdist : (computeResults inpZero).distribution = baseItems inpZero := by
    show distributionOf inpZero = _
    simp only [distributionOf]
    rw [h0, if_neg (lt_irrefl 0)]
  constructor
  · exact calculate_loads_ok inpZero (by simp [inpZero])
  · intro hall
    have hmem :
        ({ w_kN := 0, hx := 3.5, h_story := 3.5,
           delta_a := 3.5 * driftRatioOf inpZero, w := none, Cvx := none,
           Fx := none, Da_disp := none, Vx := none } : StoryOut) ∈
          (computeResults inpZero).distribution := by
      rw [hdist, baseItems, hsd]
      simp
    have h1 := hall _ hmem
    simp at h1

/-- C3 (amended): for every otherwise-valid input whose story weights
are all zero, `calculate_loads` succeeds (no division fault) and the
returned per-story `Cvx`, `Fx` and `Vx` are all absent (`none`) — the
distribution pass is skipped entirely rather than populated with
zeros. -/
theorem zero_weights_no_fault (inp : Inputs) (hF : inp.siteClass ≠ SiteCls.F)
    (hw : ∀ s ∈ inp.stories, s.w = 0) :
    calculate_loads inp = Except.ok (computeResults inp) ∧
    ∀ s ∈ (computeResults inp).distribution,
      s.Cvx = none ∧ s.Fx = none ∧ s.Vx = none := by
  refine ⟨calculate_loads_ok inp hF, ?_⟩
  intro s hs
  have h0 : sumWhkOf inp = 0 := sumWhk_zero inp hw
  have hdist : (computeResults inp).distribution = baseItems inp := by
    show distributionOf inp = _
    simp only [distributionOf]
    rw [h0, if_neg (lt_irrefl 0)]
  rw [hdist, baseItems] at hs
  obtain ⟨p, _, rfl⟩ := List.mem_map.mp hs
  exact ⟨rfl, rfl, rfl⟩

/-- C3 witness: the amended statement instantiated at the Scenario B
fixture. -/
theorem zero_weights_no_fault_witness :
    calculate_loads inpZero = Except.ok (computeResults inpZero) ∧
    ∀ s ∈ (computeResults inpZero).distribution,
      s.Cvx = none ∧ s.Fx = none ∧ s.Vx = none := by
  refine zero_weights_no_fault inpZero (by simp [inpZero]) ?_
  intro s hs
  simp only [inpZero, List.mem_cons, List.mem_singleton, List.not_mem_nil,
    or_false, or_self] at hs
  rw [hs]

/-! ### Force distribution sums -/

/-- The reversed cumulative pass yields one shear per force. -/
theorem suffixSums_length (l : List ℝ) : (suffixSums l).length = l.length := by
  induction l with
  | nil => rfl
  | cons x xs ih => simp [suffixSums, ih]

/-- Attaching `Vx` does not disturb any other projection of the story
items. -/
theorem zipWith_setVx_map_keep {α : Type} (g : StoryOut → α)
    (hg : ∀ it v, g (setVx it v) = g it) :
    ∀ (l : List StoryOut) (v : List ℝ), l.length = v.length →
      (List.zipWith setVx l v).map g = l.map g := by
  intro l
  induction l with
  | nil => intro v h; simp
  | cons it rest ih =>
    intro v h
    cases v with
    | nil => simp at h
    | cons x xs =>
      simp only [List.zipWith_cons_cons, List.map_cons, hg]
      rw [ih xs (by simpa using h)]

/-- After the zip pass the `Vx` column is exactly the shear list. -/
theorem zipWith_setVx_map_Vx :
    ∀ (l : List StoryOut) (v : List ℝ), l.length = v.length →
      (List.zipWith setVx l v).map StoryOut.Vx = v.map some := by
  intro l
  induction l with
  | nil =>
    intro v h
    cases v with
    | nil => simp
    | cons x xs => simp at h
  | cons it rest ih =>
    intro v h
    cases v with
    | nil => simp at h
    | cons x xs =>
      simp only [List.zipWith_cons_cons, List.map_cons, setVx]
      rw [ih xs (by simpa using h)]

/-- The lateral forces of the populated items sum to the (converted)
base shear: `Σ Cvx·V·f = (Σ w·hx^k) / sum_whk · V·f = V·f`. -/
theorem distItems_sum_Fx (inp : Inputs) (hS : 0 < sumWhkOf inp) :
    ((distItems inp).map (fun it => it.Fx.getD 0)).sum =
      V_kNOf inp * fConv inp.unit := by
  rw [distItems, List.map_map]
  simp only [Function.comp_def, Option.getD_some]
  have hrw : ∀ p ∈ storyDataOf inp,
      p.1 * p.2.1 ^ kOf inp / sumWhkOf inp * V_kNOf inp * fConv inp.unit =
      (fun q : ℝ × ℝ × ℝ => q.1 * q.2.1 ^ kOf inp) p *
        (V_kNOf inp * fConv inp.unit / sumWhkOf inp) := by
    intro p _
    field_simp
    ring
  rw [List.map_congr_left hrw, List.sum_map_mul_right, ← sumWhkOf]
  rw [mul_comm, div_mul_cancel₀ _ hS.ne']

/-- C6: for every input with at least one story and a positive weighted
sum, the base shear is `Cs` times the total weight, the per-story
lateral forces `Fx` sum exactly to the (unit-converted) base shear, and
the bottom story's cumulative shear `Vx` — built top-down — equals that
same base shear. -/
theorem sum_Fx_eq_V_and_base_Vx (inp : Inputs) (hne : inp.stories ≠ [])
    (hS : 0 < sumWhkOf inp) :
    V_kNOf inp = CsOf inp * W_totalOf inp ∧
    ((distributionOf inp).map (fun s => s.Fx.getD 0)).sum =
      V_kNOf inp * fConv inp.unit ∧
    ∀ d, (distributionOf inp).head? = some d →
      d.Vx = some (V_kNOf inp * fConv inp.unit) := by
  have hlen : (distItems inp).length =
      (suffixSums ((distItems inp).map (fun it => it.Fx.getD 0))).length := by
    rw [suffixSums_length, List.length_map]
  have hdist : distributionOf inp = List.zipWith setVx (distItems inp)
      (suffixSums ((distItems inp).map (fun it => it.Fx.getD 0))) := by
    rw [distributionOf, if_pos hS]
  refine ⟨rfl, ?_, ?_⟩
  · rw [hdist, zipWith_setVx_map_keep (fun s => s.Fx.getD 0) (fun it v => rfl) _ _ hlen]
    exact distItems_sum_Fx inp hS
  · intro d hd
    have hne2 : distItems inp ≠ [] := by
      rw [distItems, storyDataOf]
      cases hst : inp.stories with
      | nil => exact absurd hst hne
      | cons s rest => simp [cumPairs]
    obtain ⟨it, items', hitems⟩ := List.exists_cons_of_ne_nil hne2
    rw [hdist, hitems] at hd
    simp only [List.map_cons, suffixSums, List.zipWith_cons_cons, List.head?_cons,
      Option.some.injEq] at hd
    have hsum := distItems_sum_Fx inp hS
    rw [hitems, List.map_cons, List.sum_cons] at hsum
    rw [← hd, setVx, hsum]

/-- One-story fixture: the weighted sum is `1 · 1 ** k = 1`. -/
theorem inpOne_sumWhk : sumWhkOf inpOne = 1 := by
  have hsd : storyDataOf inpOne = [(1, 1, 1)] := by
    norm_num [storyDataOf, cumPairs, inpOne]
  rw [sumWhkOf, hsd]
  simp [Real.one_rpow]

/-- C6 witness: instantiated at the one-story fixture. -/
theorem sum_Fx_eq_V_and_base_Vx_witness :
    V_kNOf inpOne = CsOf inpOne * W_totalOf inpOne ∧
    ((distributionOf inpOne).map (fun s => s.Fx.getD 0)).sum =
      V_kNOf inpOne * fConv inpOne.unit ∧
    ∀ d, (distributionOf inpOne).head? = some d →
      d.Vx = some (V_kNOf inpOne * fConv inpOne.unit) := by
  refine sum_Fx_eq_V_and_base_Vx inpOne (by simp [inpOne]) ?_
  rw [inpOne_sumWhk]
  norm_num

/-! ### Unit conversion -/

/-- Scaling every list element scales the sum. -/
theorem sum_map_smul (c : ℝ) :
    ∀ l : List ℝ, (l.map (fun x => c * x)).sum = c * l.sum := by
  intro l
  induction l with
  | nil => simp
  | cons x xs ih => simp [ih, mul_add]

/-- Scaling every force scales every suffix sum. -/
theorem suffixSums_smul (c : ℝ) :
    ∀ l : List ℝ, suffixSums (l.map (fun x => c * x)) =
      (suffixSums l).map (fun x => c * x) := by
  intro l
  induction l with
  | nil => rfl
  | cons x xs ih =>
    simp only [List.map_cons, suffixSums, ih, sum_map_smul]
    rw [mul_add]

/-- A successful run always carries exactly the computed results
record. -/
theorem calculate_loads_ok_elim (inp : Inputs) (r : Results)
    (h : calculate_loads inp = Except.ok r) : r = computeResults inp := by
  rw [calculate_loads] at h
  cases hfa : get_fa inp.siteClass inp.Ss with
  | none => rw [hfa] at h; simp at h
  | some a =>
    cases hfv : get_fv inp.siteClass inp.S1 with
    | none => rw [hfa, hfv] at h; simp at h
    | some b =>
      rw [hfa, hfv] at h
      simp at h
      exact h.symm

/-- All three unit factors are positive. -/
theorem fConv_pos (u : ForceUnit) : 0 < fConv u := by
  cases u <;> norm_num [fConv]

/-- C8: two successful runs on the same physical inputs that differ only
in the requested unit agree on every unit-independent quantity (`Cs` and
its bounds, `Ta`, `T_used`, `Cu`, `k`, `Cvx`, `SDC`, `T0`, `Ts`, the
spectrum), while every weight and force output (`W_total`, `V`,
per-story `w`, `Fx`, `Vx`) is scaled by one single positive factor. -/
theorem unit_factor_scaling (inp : Inputs) (u₁ u₂ : ForceUnit) (r₁ r₂ : Results)
    (h₁ : calculate_loads { inp with unit := u₁ } = Except.ok r₁)
    (h₂ : calculate_loads { inp with unit := u₂ } = Except.ok r₂) :
    ∃ c : ℝ, 0 < c ∧
      r₂.W_total = c * r₁.W_total ∧ r₂.V = c * r₁.V ∧
      r₂.distribution.map StoryOut.w =
        r₁.distribution.map (fun s => s.w.map (fun x => c * x)) ∧
      r₂.distribution.map StoryOut.Fx =
        r₁.distribution.map (fun s => s.Fx.map (fun x => c * x)) ∧
      r₂.distribution.map StoryOut.Vx =
        r₁.distribution.map (fun s => s.Vx.map (fun x => c * x)) ∧
      r₂.Cs = r₁.Cs ∧ r₂.Cs_calc = r₁.Cs_calc ∧ r₂.Cs_max = r₁.Cs_max ∧
      r₂.Cs_min = r₁.Cs_min ∧ r₂.Ta = r₁.Ta ∧ r₂.T_used = r₁.T_used ∧
      r₂.Cu = r₁.Cu ∧ r₂.k = r₁.k ∧
      r₂.distribution.map StoryOut.Cvx = r₁.distribution.map StoryOut.Cvx ∧
      r₂.SDC = r₁.SDC ∧ r₂.T0 = r₁.T0 ∧ r₂.Ts = r₁.Ts ∧
      r₂.spectrum = r₁.spectrum := by
  have hr₁ := calculate_loads_ok_elim _ _ h₁
  have hr₂ := calculate_loads_ok_elim _ _ h₂
  subst hr₁
  subst hr₂
  simp only [computeResults]
  have hf₁ : 0 < fConv u₁ := fConv_pos u₁
  have hf₂ : 0 < fConv u₂ := fConv_pos u₂
  have hW : W_totalOf { inp with unit := u₂ } * fConv u₂ =
      fConv u₂ / fConv u₁ * (W_totalOf { inp with unit := u₁ } * fConv u₁) := by
    rw [show W_totalOf { inp with unit := u₂ } = W_totalOf { inp with unit := u₁ } from rfl]
    field_simp
    ring
  have hV : V_kNOf { inp with unit := u₂ } * fConv u₂ =
      fConv u₂ / fConv u₁ * (V_kNOf { inp with unit := u₁ } * fConv u₁) := by
    rw [show V_kNOf { inp with unit := u₂ } = V_kNOf { inp with unit := u₁ } from rfl]
    field_simp
    ring
  have hkk : kOf { inp with unit := u₂ } = kOf { inp with unit := u₁ } := rfl
  have hSS : sumWhkOf { inp with unit := u₂ } = sumWhkOf { inp with unit := u₁ } := rfl
  have hVV : V_kNOf { inp with unit := u₂ } = V_kNOf { inp with unit := u₁ } := rfl
  have hsd : storyDataOf { inp with unit := u₂ } = storyDataOf { inp with unit := u₁ } := rfl
  by_cases hpos : 0 < sumWhkOf { inp with unit := u₁ }
  · have hpos₂ : 0 < sumWhkOf { inp with unit := u₂ } := hpos
    have hd₁ : distributionOf { inp with unit := u₁ } =
        List.zipWith setVx (distItems { inp with unit := u₁ })
          (suffixSums ((distItems { inp with unit := u₁ }).map
            (fun it => it.Fx.getD 0))) := by
      rw [distributionOf, if_pos hpos]
    have hd₂ : distributionOf { inp with unit := u₂ } =
        List.zipWith setVx (distItems { inp with unit := u₂ })
          (suffixSums ((distItems { inp with unit := u₂ }).map
            (fun it => it.Fx.getD 0))) := by
      rw [distributionOf, if_pos hpos₂]
    have hlen₁ : (distItems { inp with unit := u₁ }).length =
        (suffixSums ((distItems { inp with unit := u₁ }).map
          (fun it => it.Fx.getD 0))).length := by
      rw [suffixSums_length, List.length_map]
    have hlen₂ : (distItems { inp with unit := u₂ }).length =
        (suffixSums ((distItems { inp with unit := u₂ }).map
          (fun it => it.Fx.getD 0))).length := by
      rw [suffixSums_length, List.length_map]
    have hfx : (distItems { inp with unit := u₂ }).map (fun it => it.Fx.getD 0) =
        ((distItems { inp with unit := u₁ }).map (fun it => it.Fx.getD 0)).map
          (fun x => fConv u₂ / fConv u₁ * x) := by
      rw [distItems, distItems, List.map_map, List.map_map, List.map_map]
      simp only [Function.comp_def, Option.getD_some, hkk, hSS, hVV, hsd]
      refine List.map_congr_left ?_
      intro p _
      field_simp
      ring
    refine ⟨fConv u₂ / fConv u₁, div_pos hf₂ hf₁, hW, hV, ?_, ?_, ?_,
      rfl, rfl, rfl, rfl, rfl, rfl, rfl, rfl, ?_, rfl, rfl, rfl, rfl⟩
    · rw [hd₂, hd₁,
        zipWith_setVx_map_keep StoryOut.w (fun it v => rfl) _ _ hlen₂,
        zipWith_setVx_map_keep
          (fun s => s.w.map (fun x => fConv u₂ / fConv u₁ * x)) (fun it v => rfl) _ _ hlen₁,
        distItems, distItems, List.map_map, List.map_map]
      simp only [Function.comp_def, Option.map_some', hsd]
      refine List.map_congr_left ?_
      intro p _
      simp only [Option.some.injEq]
      field_simp
      ring
    · rw [hd₂, hd₁,
        zipWith_setVx_map_keep StoryOut.Fx (fun it v => rfl) _ _ hlen₂,
        zipWith_setVx_map_keep
          (fun s => s.Fx.map (fun x => fConv u₂ / fConv u₁ * x)) (fun it v => rfl) _ _ hlen₁,
        distItems, distItems, List.map_map, List.map_map]
      simp only [Function.comp_def, Option.map_some', hkk, hSS, hVV, hsd]
      refine List.map_congr_left ?_
      intro p _
      simp only [Option.some.injEq]
      field_simp
      ring
    · rw [hd₂, hd₁, zipWith_setVx_map_Vx _ _ hlen₂,
        show (fun s : StoryOut => s.Vx.map (fun x => fConv u₂ / fConv u₁ * x)) =
          (Option.map (fun x => fConv u₂ / fConv u₁ * x)) ∘ StoryOut.Vx from rfl,
        ← List.map_map, zipWith_setVx_map_Vx _ _ hlen₁, hfx, suffixSums_smul,
        List.map_map, List.map_map]
      simp only [Function.comp_def, Option.map_some']
    · rw [hd₂, hd₁,
        zipWith_setVx_map_keep StoryOut.Cvx (fun it v => rfl) _ _ hlen₂,
        zipWith_setVx_map_keep StoryOut.Cvx (fun it v => rfl) _ _ hlen₁,
        distItems, distItems, List.map_map, List.map_map]
      simp only [Function.comp_def, hkk, hSS, hsd]
  · have hneg₂ : ¬ 0 < sumWhkOf { inp with unit := u₂ } := hpos
    refine ⟨fConv u₂ / fConv u₁, div_pos hf₂ hf₁, hW, hV, ?_, ?_, ?_,
      rfl, rfl, rfl, rfl, rfl, rfl, rfl, rfl, ?_, rfl, rfl, rfl, rfl⟩ <;>
    · rw [distributionOf, if_neg hneg₂, distributionOf, if_neg hpos, baseItems,
        baseItems, List.map_map, List.map_map]
      rfl

/-- C8 witness: the one-story fixture requested in kN versus Ton. -/
theorem unit_factor_scaling_witness :
    ∃ c : ℝ, 0 < c ∧
      resTon.W_total = c * resKN.W_total ∧ resTon.V = c * resKN.V ∧
      resTon.distribution.map StoryOut.w =
        resKN.distribution.map (fun s => s.w.map (fun x => c * x)) ∧
      resTon.distribution.map StoryOut.Fx =
        resKN.distribution.map (fun s => s.Fx.map (fun x => c * x)) ∧
      resTon.distribution.map StoryOut.Vx =
        resKN.distribution.map (fun s => s.Vx.map (fun x => c * x)) ∧
      resTon.Cs = resKN.Cs ∧ resTon.Cs_calc = resKN.Cs_calc ∧
      resTon.Cs_max = resKN.Cs_max ∧ resTon.Cs_min = resKN.Cs_min ∧
      resTon.Ta = resKN.Ta ∧ resTon.T_used = resKN.T_used ∧
      resTon.Cu = resKN.Cu ∧ resTon.k = resKN.k ∧
      resTon.distribution.map StoryOut.Cvx = resKN.distribution.map StoryOut.Cvx ∧
      resTon.SDC = resKN.SDC ∧ resTon.T0 = resKN.T0 ∧ resTon.Ts = resKN.Ts ∧
      resTon.spectrum = resKN.spectrum := by
  have h1 : calculate_loads { inpOne with unit := ForceUnit.kN } = Except.ok resKN :=
    calculate_loads_ok _ (by simp [inpOne])
  have h2 : calculate_loads { inpOne with unit := ForceUnit.Ton } = Except.ok resTon :=
    calculate_loads_ok _ (by simp [inpOne])
  exact unit_factor_scaling inpOne ForceUnit.kN ForceUnit.Ton resKN resTon h1 h2

end Seismic
